import Mathlib

/-!
Verification of the QBO ingestion sync engine.

This file gives a shallow embedding of the sync engine of the repository
(apps/qbo_ingestion): checkpoint arithmetic and sync-state transitions
(models.py, sync_engine.py), the per-object-type sync runs and their
failure handling (sync_engine.py), account-level and fleet-level
orchestration (sync_engine.py), the token manager (sdk/init),
the retrying HTTP layer and the paginated query generator
(sdk/apis/api_base.py, customers.py, invoices.py), and the idempotent
record stores (models.py).  External collaborators (the QBO query service,
the HTTP transport, the identity provider, the database) are modelled as
explicit inputs; the code of the repository is translated function by
function.
-/

/-! ## Python string comparison

Python compares strings lexicographically by code point.  We model a
Python string comparison by mapping each character to its code point and
comparing the resulting lists with the lexicographic order on `List Nat`.
-/

/-- Code-point sequence of a string; the key Python compares by. -/
def strKey (s : String) : List Nat := s.data.map Char.toNat

/-- Model of the Python expression `a < b` on strings: lexicographic
comparison of code points. -/
def pyStrLt (a b : String) : Bool := decide (strKey a < strKey b)

/-- Model of Python truthiness for an optional string: `None` and the
empty string are falsy. -/
def pyTruthy : Option String → Bool
  | none => false
  | some s => !(s == "")

/-! ## Checkpoint arithmetic (sync_engine.py, `_update_checkpoint`) -/

/-- Model of `SyncEngine._update_checkpoint`: replace the current
checkpoint only when the new value is truthy and either no current value
is held or the new string compares strictly greater. -/
def updateCheckpoint (current newValue : Option String) : Option String :=
  if pyTruthy newValue ∧ (¬ pyTruthy current ∨ pyStrLt ((current.getD "")) (newValue.getD "")) then
    newValue
  else
    current

/-- Comparison key of an optional checkpoint: `None` behaves like the
empty string (both are the bottom of the order, and the engine never
stores an empty checkpoint). -/
def ckKey (c : Option String) : List Nat := strKey (c.getD "")

/-- Watermark order: `a` is at most `b` when the comparison key of `a`
is at most that of `b` in the lexicographic order. -/
def ckLe (a b : Option String) : Bool := decide (ckKey a ≤ ckKey b)

/-! ## Sync state (models.py, `SyncState`) -/

/-- Status values of `SyncStatus` in models.py. -/
inductive SyncStatus where
  | pending
  | inProgress
  | success
  | failed
deriving DecidableEq, Repr

/-- Model of the `SyncState` row: per (account, object-type) watermark and
status record.  Audit columns managed by the framework (`created_at`,
`updated_at`) are not modelled. -/
structure SyncState where
  status : SyncStatus
  checkpoint : Option String
  lastAttemptTime : Option Nat
  lastSuccessfulSyncTime : Option Nat
  errorMessage : Option String
  consecutiveFailures : Nat
deriving DecidableEq, Repr

/-- Model of `SyncState.mark_started`: set status in-progress, stamp the
attempt instant, clear the error. -/
def SyncState.markStarted (st : SyncState) (now : Nat) : SyncState :=
  { st with status := .inProgress, lastAttemptTime := some now, errorMessage := none }

/-- Model of `SyncState.mark_success`: set status success, stamp the
success instant, reset the failure counter, clear the error, and store
the checkpoint only when it is truthy. -/
def SyncState.markSuccess (st : SyncState) (now : Nat) (checkpoint : Option String) : SyncState :=
  { st with
    status := .success
    lastSuccessfulSyncTime := some now
    consecutiveFailures := 0
    errorMessage := none
    checkpoint := if pyTruthy checkpoint then checkpoint else st.checkpoint }

/-- Model of `SyncState.mark_failed`: set status failed, record the error
message, increment the failure counter. -/
def SyncState.markFailed (st : SyncState) (errorMessage : String) : SyncState :=
  { st with
    status := .failed
    errorMessage := some errorMessage
    consecutiveFailures := st.consecutiveFailures + 1 }

/-! ## Timestamp parsing (sync_engine.py, `_parse_last_updated_time`)

The source calls the Python standard library `datetime.fromisoformat`
after replacing a trailing `Z` with `+00:00`, and returns `None` for a
missing or empty string or on a parse failure.  `fromisoformat` itself is
external library code; we model its acceptance of the ISO shapes the
remote system emits: a date `YYYY-MM-DD`, optionally followed by a
`T` or space separator, a time `HH:MM:SS`, an optional fractional part of
one to six digits, and an optional `+HH:MM` or `-HH:MM` offset.  The
parsed value is represented by the normalized string itself; downstream
only its presence or absence matters. -/

/-- Recognizer for an optional numeric UTC offset suffix `+HH:MM` or
`-HH:MM` (or nothing). -/
def isOffsetPart : List Char → Bool
  | [] => true
  | [c, h1, h2, ':', m1, m2] =>
      (c == '+' || c == '-') && [h1, h2, m1, m2].all Char.isDigit
  | _ => false

/-- Recognizer for an optional fractional-seconds part followed by an
optional offset. -/
def isFracPart (l : List Char) : Bool :=
  match l with
  | '.' :: rest =>
      let frac := rest.takeWhile Char.isDigit
      decide (1 ≤ frac.length) && decide (frac.length ≤ 6) &&
        isOffsetPart (rest.dropWhile Char.isDigit)
  | _ => isOffsetPart l

/-- Recognizer for the ISO datetime shapes accepted by
`datetime.fromisoformat` on the timestamps the remote system emits. -/
def isIsoDateTime (s : String) : Bool :=
  match s.data with
  | y1 :: y2 :: y3 :: y4 :: '-' :: m1 :: m2 :: '-' :: d1 :: d2 :: rest =>
      [y1, y2, y3, y4, m1, m2, d1, d2].all Char.isDigit &&
      (match rest with
       | [] => true
       | sep :: h1 :: h2 :: ':' :: mi1 :: mi2 :: ':' :: s1 :: s2 :: rest2 =>
           (sep == 'T' || sep == ' ') &&
           [h1, h2, mi1, mi2, s1, s2].all Char.isDigit && isFracPart rest2
       | _ => false)
  | _ => false

/-- Model of the slice expression replacing a trailing `Z` suffix by the
explicit `+00:00` offset before parsing. -/
def normalizeTrailingZ (s : String) : String :=
  if s.data.getLast? == some 'Z' then String.mk (s.data.dropLast ++ ("+00:00").data) else s

/-- Model of `SyncEngine._parse_last_updated_time`: `None` for a missing
or empty string; otherwise replace a trailing `Z` by `+00:00` and parse,
returning `None` on failure. -/
def parseLastUpdatedTime (isoString : Option String) : Option String :=
  match isoString with
  | none => none
  | some s =>
      if s == "" then none
      else
        let normalized := normalizeTrailingZ s
        if isIsoDateTime normalized then some normalized else none

/-! ## Per-object-type sync runs (sync_engine.py, `sync_customers` and
`sync_invoices`)

The environment of one run is the outcome of the token check and the
batches the API generator yields; an exception anywhere in the batch
loop (the generator itself or an upsert) is represented by an error that
occurs after the successfully processed batches.  The run records the
upsert calls it makes and the `mark_failed` and `mark_success` calls on
the sync state. -/

/-- Exceptions that can escape a sync run (sdk/exceptions.py). -/
inductive SyncExc where
  | invalidGrant (msg : String)
  | sdkError (msg : String)
  | otherError (msg : String)
deriving DecidableEq, Repr

/-- Model of Python `str(e)` on a sync exception. -/
def SyncExc.message : SyncExc → String
  | .invalidGrant m => m
  | .sdkError m => m
  | .otherError m => m

/-- One entity dictionary as fetched from the remote system: the fields
the engine reads from the raw JSON payload. -/
structure QBORecord where
  id : Option String
  syncToken : Option String
  lastUpdatedTime : Option String
  customerRef : Option String
deriving DecidableEq, Repr

/-- One recorded call to `Customer.upsert` or `Invoice.upsert` made by a
sync run. -/
structure UpsertCall where
  qboId : Option String
  syncToken : Option String
  lastUpdatedTime : Option String
  customerRef : Option String
deriving DecidableEq, Repr

/-- Outcome of iterating the API generator: the batches that were yielded
and processed, then possibly an exception. -/
structure FetchOutcome where
  batches : List (List QBORecord)
  iterError : Option SyncExc
deriving Repr

/-- Environment of one `sync_customers` or `sync_invoices` call. -/
structure SyncEnv where
  ensureError : Option SyncExc
  fetch : FetchOutcome
deriving Repr

/-- Result of one sync run: the returned value or the re-raised
exception, the final sync state, the upsert calls, and the `mark_failed`
and `mark_success` calls. -/
structure SyncRunOut where
  result : Except SyncExc (Nat × Option String)
  state : SyncState
  upserts : List UpsertCall
  markFailedCalls : List String
  markSuccessCalls : List (Option String)
deriving Repr

/-- Loop body of `sync_customers` for one record: advance the running
checkpoint with the raw `MetaData.LastUpdatedTime` string, upsert the
record with the parsed timestamp, and count it. -/
def stepCustomerRecord (acc : Nat × Option String × List UpsertCall) (r : QBORecord) :
    Nat × Option String × List UpsertCall :=
  (acc.1 + 1,
   updateCheckpoint acc.2.1 r.lastUpdatedTime,
   acc.2.2 ++ [⟨r.id, r.syncToken, parseLastUpdatedTime r.lastUpdatedTime, none⟩])

/-- Loop body of `sync_invoices` for one record: as for customers, and
additionally extract `CustomerRef.value` for the upsert. -/
def stepInvoiceRecord (acc : Nat × Option String × List UpsertCall) (r : QBORecord) :
    Nat × Option String × List UpsertCall :=
  (acc.1 + 1,
   updateCheckpoint acc.2.1 r.lastUpdatedTime,
   acc.2.2 ++ [⟨r.id, r.syncToken, parseLastUpdatedTime r.lastUpdatedTime, r.customerRef⟩])

/-- Model of `SyncEngine.sync_customers`.  The token check runs before the
sync state is marked started and before the `try` block; only the batch
loop and the success marking are under the exception handler that calls
`mark_failed` and re-raises. -/
def syncCustomersRun (st0 : SyncState) (now : Nat) (env : SyncEnv) : SyncRunOut :=
  match env.ensureError with
  | some e => ⟨.error e, st0, [], [], []⟩
  | none =>
      let st1 := st0.markStarted now
      let folded := env.fetch.batches.foldl (fun acc batch => batch.foldl stepCustomerRecord acc)
        (0, st0.checkpoint, [])
      match env.fetch.iterError with
      | some e =>
          ⟨.error e, st1.markFailed e.message, folded.2.2, [e.message], []⟩
      | none =>
          ⟨.ok (folded.1, folded.2.1), st1.markSuccess now folded.2.1, folded.2.2, [],
           [folded.2.1]⟩

/-- Model of `SyncEngine.sync_invoices`; identical control flow to
`sync_customers` with the invoice loop body. -/
def syncInvoicesRun (st0 : SyncState) (now : Nat) (env : SyncEnv) : SyncRunOut :=
  match env.ensureError with
  | some e => ⟨.error e, st0, [], [], []⟩
  | none =>
      let st1 := st0.markStarted now
      let folded := env.fetch.batches.foldl (fun acc batch => batch.foldl stepInvoiceRecord acc)
        (0, st0.checkpoint, [])
      match env.fetch.iterError with
      | some e =>
          ⟨.error e, st1.markFailed e.message, folded.2.2, [e.message], []⟩
      | none =>
          ⟨.ok (folded.1, folded.2.1), st1.markSuccess now folded.2.1, folded.2.2, [],
           [folded.2.1]⟩

/-! ## Account-level orchestration (sync_engine.py, `_sync_object_type`
and `sync_account`; models.py, `QBOAccount`) -/

/-- Model of the `QBOAccount` row: credential fields the engine reads and
writes.  The refresh token column is non-nullable in the schema. -/
structure QBOAccount where
  realmId : String
  refreshToken : String
  accessToken : Option String
  isTokenExpired : Bool
deriving DecidableEq, Repr

/-- Outcome of invoking one object type sync method (`sync_customers` or
`sync_invoices`) for an account: the returned pair, or the exception the
method re-raised. -/
inductive TypeSyncOutcome where
  | ok (count : Nat) (checkpoint : Option String)
  | invalidGrant (msg : String)
  | failure (msg : String)
deriving DecidableEq, Repr

/-- Per-type entry of the results dictionary built by `sync_account`.
The success entry carries a checkpoint key; the failed entry does not. -/
structure TypeResultRec where
  status : String
  count : Nat
  checkpoint : Option (Option String)
  error : Option String
deriving DecidableEq, Repr

/-- Account-level errors raised by `sync_account`
(sync_engine.py, module-level exception classes). -/
inductive AccountError where
  | notFound (msg : String)
  | revoked (msg : String)
  | syncError (msg : String)
deriving DecidableEq, Repr

/-- Model of Python `str(e)` on an account-level error. -/
def AccountError.message : AccountError → String
  | .notFound m => m
  | .revoked m => m
  | .syncError m => m

/-- Names of the `SYNC_CONFIG` table, in iteration order. -/
def SYNC_CONFIG : List String := ["customers", "invoices"]

/-- Model of `SyncEngine._sync_object_type`: a successful method call
yields a success entry; `InvalidGrantError` flips the revoked flag on the
account, persists it, and raises the distinct revoked error; any other
exception is converted to a failed entry. -/
def syncObjectTypeM (acct : QBOAccount) (outcome : TypeSyncOutcome) :
    QBOAccount × Except AccountError TypeResultRec :=
  match outcome with
  | .ok count checkpoint =>
      (acct, .ok ⟨"success", count, some checkpoint, none⟩)
  | .invalidGrant _ =>
      ({ acct with isTokenExpired := true },
       .error (.revoked "Refresh token is invalid or revoked"))
  | .failure msg =>
      (acct, .ok ⟨"failed", 0, none, some msg⟩)

/-- Loop of `sync_account` over `SYNC_CONFIG`: run each object type in
order, collecting its result entry; a raised error aborts the loop.
Returns the persisted account, the collected entries or the error, and
the list of object types whose sync method was actually invoked. -/
def runSyncConfig (acct : QBOAccount) (outcomes : String → TypeSyncOutcome) :
    List String → QBOAccount × Except AccountError (List (String × TypeResultRec)) × List String
  | [] => (acct, .ok [], [])
  | name :: rest =>
      match syncObjectTypeM acct (outcomes name) with
      | (acct1, .ok rec) =>
          match runSyncConfig acct1 outcomes rest with
          | (acctF, .ok entries, attempted) => (acctF, .ok ((name, rec) :: entries), name :: attempted)
          | (acctF, .error e, attempted) => (acctF, .error e, name :: attempted)
      | (acct1, .error e) => (acct1, .error e, [name])

/-- Errors that `create_client_for_account` can raise while building the
client (qbo_client.py); no remote call is made during construction, but
`sync_account` still guards it for `InvalidGrantError`. -/
inductive ClientCreateError where
  | invalidGrant (msg : String)
  | otherError (msg : String)
deriving DecidableEq, Repr

/-- Model of Python `str(e)` on a client-creation error. -/
def ClientCreateError.message : ClientCreateError → String
  | .invalidGrant m => m
  | .otherError m => m

/-- Observable output of one `sync_account` call. -/
structure SyncAccountOut where
  result : Except AccountError (List (String × TypeResultRec) × Bool)
  finalAccount : Option QBOAccount
  attemptedTypes : List String
  clientCreated : Bool
deriving Repr

/-- Model of `SyncEngine.sync_account`: look the account up; refuse a
revoked account before creating a client; convert `InvalidGrantError`
from client creation into the revoked error with the flag persisted; then
run every object type of `SYNC_CONFIG`, computing the overall success
flag from the per-type entries.  Other exceptions outside the per-type
handlers are wrapped in `SyncError`. -/
def syncAccountM (db : List QBOAccount) (realmId : String)
    (clientError : Option ClientCreateError) (outcomes : String → TypeSyncOutcome) :
    SyncAccountOut :=
  match db.find? (fun a => a.realmId == realmId) with
  | none =>
      ⟨.error (.notFound ("Account with realm_id=" ++ realmId ++ " not found")), none, [], false⟩
  | some acct =>
      if acct.isTokenExpired then
        ⟨.error (.revoked "Token has been marked as expired"), some acct, [], false⟩
      else
        match clientError with
        | some (.invalidGrant _) =>
            ⟨.error (.revoked "Refresh token is invalid or revoked"),
             some { acct with isTokenExpired := true }, [], false⟩
        | some (.otherError m) =>
            ⟨.error (.syncError ("Sync failed: " ++ m)), some acct, [], true⟩
        | none =>
            match runSyncConfig acct outcomes SYNC_CONFIG with
            | (acctF, .ok entries, attempted) =>
                ⟨.ok (entries, entries.all (fun p => p.2.status == "success")),
                 some acctF, attempted, true⟩
            | (acctF, .error e, attempted) =>
                ⟨.error e, some acctF, attempted, true⟩

/-! ## Fleet-level orchestration (sync_engine.py, `sync_all_accounts`;
models.py, `QBOAccount.get_active_accounts`) -/

/-- Model of `QBOAccount.get_active_accounts`: accounts whose revoked
flag is clear and whose refresh token is non-empty (the column is
non-nullable, so the null filter is vacuous). -/
def getActiveAccounts (db : List QBOAccount) : List QBOAccount :=
  db.filter (fun a => !a.isTokenExpired && !(a.refreshToken == ""))

/-- One entry of the list returned by `sync_all_accounts`. -/
inductive FleetOutcome where
  | completed (realmId : String) (entries : List (String × TypeResultRec)) (success : Bool)
  | reauthorizationRequired (realmId : String)
  | failed (realmId : String) (error : String)
deriving DecidableEq, Repr

/-- Per-account body of the `sync_all_accounts` loop: a successful
`sync_account` result is appended as is; `RevokedRefreshTokenError` is
caught and recorded as requiring re-authorization; every other exception
is caught and recorded as a failure. -/
def fleetOutcomeFor (acct : QBOAccount)
    (runAccount : String → Except AccountError (List (String × TypeResultRec) × Bool)) :
    FleetOutcome :=
  match runAccount acct.realmId with
  | .ok (entries, success) => .completed acct.realmId entries success
  | .error (.revoked _) => .reauthorizationRequired acct.realmId
  | .error e => .failed acct.realmId e.message

/-- Model of `SyncEngine.sync_all_accounts`: iterate the active accounts,
catching every exception per account; the function itself never raises. -/
def syncAllAccountsM (db : List QBOAccount)
    (runAccount : String → Except AccountError (List (String × TypeResultRec) × Bool)) :
    List FleetOutcome :=
  (getActiveAccounts db).map (fun a => fleetOutcomeFor a runAccount)

/-! ## Token manager (sdk/init, `QuickBooksOnlineSDK.ensure_token_valid`
and `_refresh_tokens`)

Instants are modelled as integers (seconds); the five-minute safety
margin is 300 seconds.  The single HTTP exchange against the identity
provider is an input: either a 200 response carrying the new token data,
or a non-2xx response whose JSON body may or may not be parsable. -/

/-- State of the token manager for one tenant. -/
structure SdkTokenState where
  accessToken : Option String
  refreshToken : String
  tokenExpiresAt : Option Int
  hasCallback : Bool
deriving DecidableEq, Repr

/-- Outcome of the refresh exchange HTTP call: a 200 response with the
token payload (`expires_in` may be absent), or a non-2xx response whose
parsed JSON error code and description are available unless the body is
unparsable. -/
inductive RefreshHttpResult where
  | ok (accessToken refreshToken : String) (expiresIn : Option Int)
  | httpError (parsed : Option (String × String)) (bodyText : String)
deriving DecidableEq, Repr

/-- Errors raised by the token manager (sdk/exceptions.py). -/
inductive TokenError where
  | invalidGrant (msg : String)
  | authenticationError (msg : String)
deriving DecidableEq, Repr

/-- Model of `QuickBooksOnlineSDK._refresh_tokens`: on 200, replace both
tokens and the expiry together and invoke the persistence callback when
one is installed; on `invalid_grant`, raise the distinct terminal error;
on every other non-2xx response, raise `AuthenticationError`. -/
def refreshTokensM (st : SdkTokenState) (now : Int) (http : RefreshHttpResult) :
    Except TokenError (SdkTokenState × List (String × String × Int)) :=
  match http with
  | .ok newAccess newRefresh expiresIn =>
      let expiresAt := now + expiresIn.getD 3600
      .ok ({ st with
              accessToken := some newAccess
              refreshToken := newRefresh
              tokenExpiresAt := some expiresAt },
           if st.hasCallback then [(newAccess, newRefresh, expiresAt)] else [])
  | .httpError parsed bodyText =>
      match parsed with
      | some (errCode, errDesc) =>
          if errCode == "invalid_grant" then
            .error (.invalidGrant ("Refresh token invalid: " ++ errDesc))
          else
            .error (.authenticationError ("Token refresh failed: " ++ bodyText))
      | none => .error (.authenticationError ("Token refresh failed: " ++ bodyText))

/-- Condition under which `ensure_token_valid` refreshes: no access token
is held, or an expiry instant is known and now is within 300 seconds of
it or past it. -/
def needsRefresh (st : SdkTokenState) (now : Int) : Bool :=
  st.accessToken.isNone ||
    (match st.tokenExpiresAt with
     | some expiresAt => decide (now ≥ expiresAt - 300)
     | none => false)

/-- Observable output of one `ensure_token_valid` call: the resulting
state or raised error, the callback invocations, and the number of
refresh exchanges attempted. -/
structure EnsureValidOut where
  result : Except TokenError SdkTokenState
  callbackEvents : List (String × String × Int)
  exchangeAttempts : Nat
deriving Repr

/-- Model of `QuickBooksOnlineSDK.ensure_token_valid`: refresh when no
access token is held, or when the known expiry instant is within the
safety margin of now or already passed; otherwise do nothing.  No retry
loop exists: at most one exchange is attempted. -/
def ensureTokenValidM (st : SdkTokenState) (now : Int) (http : RefreshHttpResult) :
    EnsureValidOut :=
  match st.accessToken with
  | none =>
      match refreshTokensM st now http with
      | .ok (st1, events) => ⟨.ok st1, events, 1⟩
      | .error e => ⟨.error e, [], 1⟩
  | some _ =>
      match st.tokenExpiresAt with
      | some expiresAt =>
          if now ≥ expiresAt - 300 then
            match refreshTokensM st now http with
            | .ok (st1, events) => ⟨.ok st1, events, 1⟩
            | .error e => ⟨.error e, [], 1⟩
          else ⟨.ok st, [], 0⟩
      | none => ⟨.ok st, [], 0⟩

/-! ## Retrying HTTP layer (sdk/apis/api_base.py, `_request_with_retry`
and `_handle_response`)

One logical request is driven by the sequence of outcomes of the
individual HTTP attempts, indexed by attempt number.  The classified
outcome of an attempt corresponds to what `_handle_response` raises (or
returns) for that attempt, plus the transport-level failure case.  The
run records every backoff sleep duration in order. -/

/-- Classified outcome of one individual HTTP attempt. -/
inductive HttpAttemptOutcome where
  | success (body : Nat)
  | rateLimited
  | serverError (msg : String)
  | authError (msg : String)
  | notFound (msg : String)
  | validationError (msg : String)
  | networkError (msg : String)
  | unclassifiedApiError (msg : String)
deriving DecidableEq, Repr

/-- Errors surfaced by `_request_with_retry` (sdk/exceptions.py). -/
inductive RetryError where
  | rateLimit (msg : String)
  | server (msg : String)
  | auth (msg : String)
  | notFoundErr (msg : String)
  | validation (msg : String)
  | sdkError (msg : String)
deriving DecidableEq, Repr

/-- Attempt loop of `_request_with_retry`.  The rate-limit handler sleeps
`retryDelay * 2 ^ attempt` on every attempt including the last; the
server-error and network-error handlers sleep `retryDelay * (attempt + 1)`
except on the last attempt; authentication, not-found, and validation
errors are re-raised at once; an unclassified API error is not caught by
any handler and propagates at once.  After the loop the last-seen
(converted) exception is raised. -/
def requestAttemptLoop (maxRetries retryDelay : Nat) (attempts : Nat → HttpAttemptOutcome) :
    Nat → Nat → Option RetryError → List Nat → Except RetryError Nat × List Nat
  | _, 0, lastExc, sleeps =>
      (.error (lastExc.getD (.sdkError "Request failed after retries")), sleeps)
  | i, remaining + 1, _, sleeps =>
      match attempts i with
      | .success body => (.ok body, sleeps)
      | .rateLimited =>
          requestAttemptLoop maxRetries retryDelay attempts (i + 1) remaining
            (some (.rateLimit "Rate limit exceeded after retries"))
            (sleeps ++ [retryDelay * 2 ^ i])
      | .serverError m =>
          requestAttemptLoop maxRetries retryDelay attempts (i + 1) remaining
            (some (.server m))
            (if i < maxRetries - 1 then sleeps ++ [retryDelay * (i + 1)] else sleeps)
      | .authError m => (.error (.auth m), sleeps)
      | .notFound m => (.error (.notFoundErr m), sleeps)
      | .validationError m => (.error (.validation m), sleeps)
      | .networkError m =>
          requestAttemptLoop maxRetries retryDelay attempts (i + 1) remaining
            (some (.sdkError ("Network error: " ++ m)))
            (if i < maxRetries - 1 then sleeps ++ [retryDelay * (i + 1)] else sleeps)
      | .unclassifiedApiError m => (.error (.sdkError m), sleeps)

/-- Model of `ApiBase._request_with_retry` with the constructor defaults
`_max_retries = 3` and base delay `retryDelay` (the source value is one
second). -/
def requestWithRetry (retryDelay : Nat) (attempts : Nat → HttpAttemptOutcome) :
    Except RetryError Nat × List Nat :=
  requestAttemptLoop 3 retryDelay attempts 0 3 none []

/-! ## Paginated query generator (sdk/apis/api_base.py,
`_query_generator`; customers.py and invoices.py, `get_all_generator`)

The remote query service is external: we model the semantics of the
query string the source builds.  `SELECT * FROM E ORDER BY
MetaData.LastUpdatedTime ASC` evaluates to the account table sorted
ascending by update time; the `WHERE MetaData.LastUpdatedTime > w` clause
keeps exactly the records whose update time compares strictly greater
than the watermark (string comparison, as in the sortable timestamp
format); `STARTPOSITION s MAXRESULTS n` returns the window of `n` records
from one-based position `s`. -/

/-- One record held by the remote system, as relevant to the query. -/
structure RemoteRecord where
  rid : String
  lastUpdatedTime : String
deriving DecidableEq, Repr

/-- Sort key comparison for `ORDER BY MetaData.LastUpdatedTime ASC`. -/
def updTimeLe (a b : RemoteRecord) : Bool := !(pyStrLt b.lastUpdatedTime a.lastUpdatedTime)

/-- Insertion of one record into an ascending list. -/
def insertAsc (r : RemoteRecord) : List RemoteRecord → List RemoteRecord
  | [] => [r]
  | x :: xs => if updTimeLe r x then r :: x :: xs else x :: insertAsc r xs

/-- Evaluation of `ORDER BY MetaData.LastUpdatedTime ASC` over a table. -/
def orderByUpdTimeAsc (table : List RemoteRecord) : List RemoteRecord :=
  table.foldr insertAsc []

/-- Evaluation of the query the generator issues: optional strictly-greater
watermark filter, then ascending ordering. -/
def evalSelectQuery (table : List RemoteRecord) (watermark : Option String) :
    List RemoteRecord :=
  orderByUpdTimeAsc
    (match watermark with
     | some w => table.filter (fun r => pyStrLt w r.lastUpdatedTime)
     | none => table)

/-- Window of one page: `STARTPOSITION start MAXRESULTS pageSize` over the
selected sequence (positions are one-based). -/
def fetchPage (selected : List RemoteRecord) (start pageSize : Nat) : List RemoteRecord :=
  (selected.drop (start - 1)).take pageSize

/-- Model of the loop of `ApiBase._query_generator`: request the window at
the current start position; stop before yielding an empty page; yield the
page; stop after a page shorter than the page size; otherwise advance the
start position by the page size. -/
def queryGeneratorFrom (selected : List RemoteRecord) (pageSize : Nat) (start : Nat) :
    List (List RemoteRecord) :=
  if (fetchPage selected start pageSize).isEmpty then []
  else if (fetchPage selected start pageSize).length < pageSize then
    [fetchPage selected start pageSize]
  else fetchPage selected start pageSize :: queryGeneratorFrom selected pageSize (start + pageSize)
termination_by selected.length + 1 - start
decreasing_by
  simp only [fetchPage, List.isEmpty_eq_true, ← List.length_eq_zero, List.length_take,
    List.length_drop] at *
  omega

/-- Default page size of the generator (`DEFAULT_PAGE_SIZE`). -/
def DEFAULT_PAGE_SIZE : Nat := 100

/-- Model of `Customers.get_all_generator`: with a truthy watermark the
query carries the strictly-greater filter, otherwise it selects the whole
table; both orderings are ascending by update time; pagination starts at
position one with the default page size. -/
def customersGetAllGenerator (table : List RemoteRecord) (lastUpdatedTime : Option String) :
    List (List RemoteRecord) :=
  let watermark := if pyTruthy lastUpdatedTime then lastUpdatedTime else none
  queryGeneratorFrom (evalSelectQuery table watermark) DEFAULT_PAGE_SIZE 1

/-- Model of `Invoices.get_all_generator`; textually the same query over
the invoice table. -/
def invoicesGetAllGenerator (table : List RemoteRecord) (lastUpdatedTime : Option String) :
    List (List RemoteRecord) :=
  let watermark := if pyTruthy lastUpdatedTime then lastUpdatedTime else none
  queryGeneratorFrom (evalSelectQuery table watermark) DEFAULT_PAGE_SIZE 1

/-! ## Record stores (models.py, `Customer.upsert` and `Invoice.upsert`)

The store is the list of rows of the table; `update_or_create` with the
unique key (account, qbo_id) updates the fields of the matching rows when
one exists and appends a fresh row otherwise. -/

/-- Raw JSON payload of a record, as relevant to the stores: the extracted
customer reference and the remainder of the body. -/
structure RawPayload where
  customerRef : Option String
  body : String
deriving DecidableEq, Repr

/-- One row of the customers table. -/
structure CustomerRow where
  accountId : String
  qboId : String
  rawData : RawPayload
  syncToken : Option String
  lastUpdatedTime : Option String
deriving DecidableEq, Repr

/-- One row of the invoices table. -/
structure InvoiceRow where
  accountId : String
  qboId : String
  rawData : RawPayload
  customerRef : Option String
  syncToken : Option String
  lastUpdatedTime : Option String
deriving DecidableEq, Repr

/-- Key predicate of the unique constraint (account, qbo_id) for
customers. -/
def customerKeyIs (accountId qboId : String) (r : CustomerRow) : Bool :=
  r.accountId == accountId && r.qboId == qboId

/-- Key predicate of the unique constraint (account, qbo_id) for
invoices. -/
def invoiceKeyIs (accountId qboId : String) (r : InvoiceRow) : Bool :=
  r.accountId == accountId && r.qboId == qboId

/-- Model of `Customer.upsert` via `update_or_create`: update the payload,
sync token, and last-updated fields of the row holding the key, or create
the row. -/
def customerUpsert (rows : List CustomerRow) (accountId qboId : String) (rawData : RawPayload)
    (syncToken : Option String) (lastUpdatedTime : Option String) : List CustomerRow :=
  if rows.any (customerKeyIs accountId qboId) then
    rows.map (fun r =>
      if customerKeyIs accountId qboId r then
        { r with rawData := rawData, syncToken := syncToken, lastUpdatedTime := lastUpdatedTime }
      else r)
  else
    rows ++ [⟨accountId, qboId, rawData, syncToken, lastUpdatedTime⟩]

/-- Model of `Invoice.upsert`: as for customers, extracting
`CustomerRef.value` from the raw payload when the argument is absent. -/
def invoiceUpsert (rows : List InvoiceRow) (accountId qboId : String) (rawData : RawPayload)
    (customerRef : Option String) (syncToken : Option String)
    (lastUpdatedTime : Option String) : List InvoiceRow :=
  let effectiveRef := match customerRef with
    | some c => some c
    | none => rawData.customerRef
  if rows.any (invoiceKeyIs accountId qboId) then
    rows.map (fun r =>
      if invoiceKeyIs accountId qboId r then
        { r with rawData := rawData, customerRef := effectiveRef, syncToken := syncToken,
                 lastUpdatedTime := lastUpdatedTime }
      else r)
  else
    rows ++ [⟨accountId, qboId, rawData, effectiveRef, syncToken, lastUpdatedTime⟩]

/-- Number of rows of the customers table holding a key. -/
def customerKeyCount (rows : List CustomerRow) (accountId qboId : String) : Nat :=
  (rows.filter (customerKeyIs accountId qboId)).length

/-- Number of rows of the invoices table holding a key. -/
def invoiceKeyCount (rows : List InvoiceRow) (accountId qboId : String) : Nat :=
  (rows.filter (invoiceKeyIs accountId qboId)).length

/-! ## Order lemmas for the watermark -/

/-- Empty key is the bottom of the lexicographic order. -/
theorem nil_key_le (l : List Nat) : ([] : List Nat) ≤ l := by
  cases l with
  | nil => exact le_refl _
  | cons x xs => exact le_of_lt (List.nil_lt_cons x xs)

/-- Falsy checkpoints have the empty comparison key. -/
theorem ckKey_eq_nil_of_falsy (c : Option String) (h : pyTruthy c = false) : ckKey c = [] := by
  cases c with
  | none => rfl
  | some s =>
      simp only [pyTruthy, Bool.not_eq_false', beq_iff_eq] at h
      simp [ckKey, h, strKey]

/-- Reflexivity of the watermark order. -/
theorem ckLe_refl (a : Option String) : ckLe a a = true := by
  simp [ckLe]

/-- Transitivity of the watermark order. -/
theorem ckLe_trans {a b c : Option String} (h1 : ckLe a b = true) (h2 : ckLe b c = true) :
    ckLe a c = true := by
  simp only [ckLe, decide_eq_true_eq] at *
  exact le_trans h1 h2

/-- A checkpoint update never decreases the watermark. -/
theorem updateCheckpoint_ge (current newValue : Option String) :
    ckLe current (updateCheckpoint current newValue) = true := by
  unfold updateCheckpoint
  split
  · rename_i h
    obtain ⟨hnew, hcur⟩ := h
    simp only [ckLe, decide_eq_true_eq]
    rcases hcur with hcur | hlt
    · rw [ckKey_eq_nil_of_falsy current (by revert hcur; cases pyTruthy current <;> simp)]
      exact nil_key_le _
    · simp only [pyStrLt, decide_eq_true_eq] at hlt
      exact le_of_lt hlt
  · exact ckLe_refl current

/-- Checkpoint monotonicity through a record fold, for any loop body
whose checkpoint component is a checkpoint update. -/
theorem foldl_ck_mono (step : (Nat × Option String × List UpsertCall) → QBORecord →
      (Nat × Option String × List UpsertCall))
    (hstep : ∀ acc r, ckLe acc.2.1 (step acc r).2.1 = true) :
    ∀ (l : List QBORecord) (acc : Nat × Option String × List UpsertCall),
      ckLe acc.2.1 (l.foldl step acc).2.1 = true := by
  intro l
  induction l with
  | nil => intro acc; exact ckLe_refl _
  | cons r rest ih =>
      intro acc
      exact ckLe_trans (hstep acc r) (ih (step acc r))

/-- Checkpoint monotonicity through the batch fold. -/
theorem foldl_batches_ck_mono (step : (Nat × Option String × List UpsertCall) → QBORecord →
      (Nat × Option String × List UpsertCall))
    (hstep : ∀ acc r, ckLe acc.2.1 (step acc r).2.1 = true) :
    ∀ (batches : List (List QBORecord)) (acc : Nat × Option String × List UpsertCall),
      ckLe acc.2.1 (batches.foldl (fun acc b => b.foldl step acc) acc).2.1 = true := by
  intro batches
  induction batches with
  | nil => intro acc; exact ckLe_refl _
  | cons b rest ih =>
      intro acc
      exact ckLe_trans (foldl_ck_mono step hstep b acc) (ih (b.foldl step acc))

/-- Customer loop body checkpoint property. -/
theorem stepCustomerRecord_ck (acc : Nat × Option String × List UpsertCall) (r : QBORecord) :
    ckLe acc.2.1 (stepCustomerRecord acc r).2.1 = true :=
  updateCheckpoint_ge acc.2.1 r.lastUpdatedTime

/-- Invoice loop body checkpoint property. -/
theorem stepInvoiceRecord_ck (acc : Nat × Option String × List UpsertCall) (r : QBORecord) :
    ckLe acc.2.1 (stepInvoiceRecord acc r).2.1 = true :=
  updateCheckpoint_ge acc.2.1 r.lastUpdatedTime

/-- C1.  For every (account, object-type) sync state and every sync
cycle, the checkpoint watermark is non-decreasing under the
string-lexicographic order: `_update_checkpoint` returns a value at least
the current checkpoint and replaces it only when the new value is truthy
and either no current value is held or the new string compares strictly
greater; `mark_success` never overwrites the stored checkpoint with a
falsy value; and every customer or invoice sync cycle (successful,
failed, or with the token check failing) leaves the stored checkpoint at
least where it was. -/
theorem C1_watermark_monotone :
    (∀ current newValue, ckLe current (updateCheckpoint current newValue) = true) ∧
    (∀ (st : SyncState) now c, pyTruthy c = false →
       (st.markSuccess now c).checkpoint = st.checkpoint) ∧
    (∀ current newValue, updateCheckpoint current newValue ≠ current →
       pyTruthy newValue = true ∧
         (pyTruthy current = false ∨
           pyStrLt (current.getD "") (newValue.getD "") = true)) ∧
    (∀ st0 now env, ckLe st0.checkpoint (syncCustomersRun st0 now env).state.checkpoint = true) ∧
    (∀ st0 now env, ckLe st0.checkpoint (syncInvoicesRun st0 now env).state.checkpoint = true) := by
  refine ⟨updateCheckpoint_ge, ?_, ?_, ?_, ?_⟩
  · intro st now c h
    simp [SyncState.markSuccess, h]
  · intro current newValue hne
    unfold updateCheckpoint at hne
    split at hne
    · rename_i h
      obtain ⟨hnew, hcur⟩ := h
      refine ⟨hnew, ?_⟩
      rcases hcur with hcur | hlt
      · exact Or.inl (by revert hcur; cases pyTruthy current <;> simp)
      · exact Or.inr hlt
    · exact absurd rfl hne
  · intro st0 now env
    unfold syncCustomersRun
    cases env.ensureError with
    | some e => exact ckLe_refl _
    | none =>
        cases env.fetch.iterError with
        | some e =>
            simp only [SyncState.markFailed, SyncState.markStarted]
            exact ckLe_refl _
        | none =>
            simp only [SyncState.markSuccess, SyncState.markStarted]
            split
            · exact foldl_batches_ck_mono stepCustomerRecord stepCustomerRecord_ck
                env.fetch.batches (0, st0.checkpoint, [])
            · exact ckLe_refl _
  · intro st0 now env
    unfold syncInvoicesRun
    cases env.ensureError with
    | some e => exact ckLe_refl _
    | none =>
        cases env.fetch.iterError with
        | some e =>
            simp only [SyncState.markFailed, SyncState.markStarted]
            exact ckLe_refl _
        | none =>
            simp only [SyncState.markSuccess, SyncState.markStarted]
            split
            · exact foldl_batches_ck_mono stepInvoiceRecord stepInvoiceRecord_ck
                env.fetch.batches (0, st0.checkpoint, [])
            · exact ckLe_refl _

/-- C1 witness: the theorem applied at concrete inputs, with each
hypothesis discharged there. -/
theorem C1_watermark_monotone_witness :
    (pyTruthy (some "") = false ∧
      ((SyncState.mk .pending (some "2024-01-01") none none none 0).markSuccess 7
          (some "")).checkpoint = some "2024-01-01") ∧
    (updateCheckpoint (some "2024-01-01") (some "2024-06-01") ≠ some "2024-01-01" ∧
      pyTruthy (some "2024-06-01") = true ∧
        (pyTruthy (some "2024-01-01") = false ∨
          pyStrLt "2024-01-01" "2024-06-01" = true)) := by
  refine ⟨⟨by decide, C1_watermark_monotone.2.1 _ 7 _ (by decide)⟩, ⟨by decide, ?_⟩⟩
  exact C1_watermark_monotone.2.2.1 (some "2024-01-01") (some "2024-06-01") (by decide)

/-- C9.  `mark_failed` changes only the status, the error message, and
the consecutive-failure counter (incremented by one), leaving the
checkpoint, the last-successful-sync instant, and the last-attempt
instant unchanged; `mark_success` sets status success, resets the
counter to zero, and clears the error message. -/
theorem C9_mark_transitions_frame :
    (∀ (st : SyncState) msg, st.markFailed msg =
       { st with status := .failed, errorMessage := some msg,
                 consecutiveFailures := st.consecutiveFailures + 1 }) ∧
    (∀ (st : SyncState) msg, (st.markFailed msg).checkpoint = st.checkpoint ∧
       (st.markFailed msg).lastSuccessfulSyncTime = st.lastSuccessfulSyncTime ∧
       (st.markFailed msg).lastAttemptTime = st.lastAttemptTime) ∧
    (∀ (st : SyncState) now c, (st.markSuccess now c).status = .success ∧
       (st.markSuccess now c).consecutiveFailures = 0 ∧
       (st.markSuccess now c).errorMessage = none) :=
  ⟨fun _ _ => rfl, fun _ _ => ⟨rfl, rfl, rfl⟩, fun _ _ _ => ⟨rfl, rfl, rfl⟩⟩

/-- C2 (amended).  In `sync_customers` and `sync_invoices`, every
exception escaping the batch iteration and the per-batch upserts
(steps 4 and 5) causes `mark_failed` to be called with the exception
message before the exception is re-raised; the token check (step 3) runs
before the `try` block, so its exceptions propagate without
`mark_failed`. -/
theorem C2_mark_failed_on_batch_errors :
    (∀ (st0 : SyncState) now env e, env.ensureError = none →
       env.fetch.iterError = some e →
         (syncCustomersRun st0 now env).result = .error e ∧
         (syncCustomersRun st0 now env).markFailedCalls = [e.message] ∧
         (syncCustomersRun st0 now env).state.status = .failed) ∧
    (∀ (st0 : SyncState) now env e, env.ensureError = none →
       env.fetch.iterError = some e →
         (syncInvoicesRun st0 now env).result = .error e ∧
         (syncInvoicesRun st0 now env).markFailedCalls = [e.message] ∧
         (syncInvoicesRun st0 now env).state.status = .failed) := by
  constructor
  · intro st0 now env e hEnsure hIter
    unfold syncCustomersRun
    rw [hEnsure, hIter]
    exact ⟨rfl, rfl, rfl⟩
  · intro st0 now env e hEnsure hIter
    unfold syncInvoicesRun
    rw [hEnsure, hIter]
    exact ⟨rfl, rfl, rfl⟩

/-- C2 witness: a concrete failing batch iteration marks the state failed
and re-raises. -/
theorem C2_mark_failed_on_batch_errors_witness :
    ((SyncEnv.mk none ⟨[[⟨some "1", some "0", some "2024-01-01T00:00:00Z", none⟩]],
        some (.sdkError "server error")⟩).ensureError = none ∧
     (SyncEnv.mk none ⟨[[⟨some "1", some "0", some "2024-01-01T00:00:00Z", none⟩]],
        some (.sdkError "server error")⟩).fetch.iterError = some (.sdkError "server error")) ∧
    (syncCustomersRun ⟨.pending, none, none, none, none, 0⟩ 5
       (SyncEnv.mk none ⟨[[⟨some "1", some "0", some "2024-01-01T00:00:00Z", none⟩]],
          some (.sdkError "server error")⟩)).markFailedCalls = ["server error"] :=
  ⟨⟨rfl, rfl⟩,
   (C2_mark_failed_on_batch_errors.1 ⟨.pending, none, none, none, none, 0⟩ 5
      (SyncEnv.mk none ⟨[[⟨some "1", some "0", some "2024-01-01T00:00:00Z", none⟩]],
         some (.sdkError "server error")⟩) (.sdkError "server error") rfl rfl).2.1⟩

/-- C2 counterexample: an exception from the token check (step 3)
escapes `sync_customers` without any `mark_failed` call and without
touching the sync state, refuting the claim that exceptions from step 3
trigger `mark_failed`. -/
theorem C2_counterexample_token_check_skips_mark_failed :
    (syncCustomersRun ⟨.pending, none, none, none, none, 0⟩ 5
       (SyncEnv.mk (some (.sdkError "refresh exchange failed")) ⟨[], none⟩)).result =
        .error (.sdkError "refresh exchange failed") ∧
    (syncCustomersRun ⟨.pending, none, none, none, none, 0⟩ 5
       (SyncEnv.mk (some (.sdkError "refresh exchange failed")) ⟨[], none⟩)).markFailedCalls =
        [] ∧
    (syncCustomersRun ⟨.pending, none, none, none, none, 0⟩ 5
       (SyncEnv.mk (some (.sdkError "refresh exchange failed")) ⟨[], none⟩)).state =
        ⟨.pending, none, none, none, none, 0⟩ :=
  ⟨rfl, rfl, rfl⟩

/-- C10 (amended).  Every record of a fetched batch is upserted (with a
null last-updated field when its timestamp is missing, empty, or not
parseable) and counted in the processed total; the running checkpoint is
unchanged for a missing or empty timestamp; but parseability plays no
part in the checkpoint update: any non-empty timestamp string, parseable
or not, advances the checkpoint exactly when no current value is held or
it compares string-greater than the current value. -/
theorem C10_unparsable_timestamp_handling :
    (∀ acc r, (stepCustomerRecord acc r).1 = acc.1 + 1 ∧
       (stepInvoiceRecord acc r).1 = acc.1 + 1) ∧
    (∀ acc r, (stepCustomerRecord acc r).2.2 =
        acc.2.2 ++ [⟨r.id, r.syncToken, parseLastUpdatedTime r.lastUpdatedTime, none⟩] ∧
      (stepInvoiceRecord acc r).2.2 =
        acc.2.2 ++ [⟨r.id, r.syncToken, parseLastUpdatedTime r.lastUpdatedTime, r.customerRef⟩]) ∧
    (parseLastUpdatedTime none = none ∧ parseLastUpdatedTime (some "") = none ∧
      (∀ s, isIsoDateTime (normalizeTrailingZ s) = false →
         parseLastUpdatedTime (some s) = none)) ∧
    (∀ acc (r : QBORecord), pyTruthy r.lastUpdatedTime = false →
       (stepCustomerRecord acc r).2.1 = acc.2.1 ∧ (stepInvoiceRecord acc r).2.1 = acc.2.1) ∧
    (∀ (current : Option String) s, s ≠ "" →
       updateCheckpoint current (some s) =
         (if pyTruthy current = false ∨ pyStrLt (current.getD "") s = true then some s
          else current)) := by
  refine ⟨fun acc r => ⟨rfl, rfl⟩, fun acc r => ⟨rfl, rfl⟩, ⟨rfl, rfl, ?_⟩, ?_, ?_⟩
  · intro s h
    by_cases hs : s == ""
    · simp [parseLastUpdatedTime, hs]
    · simp [parseLastUpdatedTime, hs, h]
  · intro acc r h
    constructor
    · simp [stepCustomerRecord, updateCheckpoint, h]
    · simp [stepInvoiceRecord, updateCheckpoint, h]
  · intro current s hs
    have hts : pyTruthy (some s) = true := by
      simp [pyTruthy, hs]
    by_cases hc : pyTruthy current = false ∨ pyStrLt (current.getD "") s = true
    · rw [if_pos hc]
      unfold updateCheckpoint
      rw [if_pos]
      refine ⟨by simp [hts], ?_⟩
      rcases hc with hc | hc
      · exact Or.inl (by simp [hc])
      · exact Or.inr (by simpa using hc)
    · rw [if_neg hc]
      push_neg at hc
      obtain ⟨hc1, hc2⟩ := hc
      unfold updateCheckpoint
      rw [if_neg]
      intro hcond
      rcases hcond.2 with h | h
      · exact h (by simpa [Bool.not_eq_false] using hc1)
      · exact hc2 (by simpa using h)

/-- C10 witness: the theorem applied at concrete inputs, with each
hypothesis discharged there. -/
theorem C10_unparsable_timestamp_handling_witness :
    (isIsoDateTime (normalizeTrailingZ "not-a-date") = false ∧
      parseLastUpdatedTime (some "not-a-date") = none) ∧
    (pyTruthy ((QBORecord.mk (some "9") none none none).lastUpdatedTime) = false ∧
      (stepCustomerRecord (0, some "2024-03-01", []) (QBORecord.mk (some "9") none none none)).2.1 =
        some "2024-03-01") ∧
    (("2024-06-01" : String) ≠ "" ∧
      updateCheckpoint (some "2024-01-01") (some "2024-06-01") =
        (if pyTruthy (some "2024-01-01") = false ∨ pyStrLt "2024-06-01" "2024-06-01" = true then
           some "2024-06-01"
         else some "2024-01-01") → True) ∧
    updateCheckpoint (some "2024-01-01") (some "2024-06-01") =
      (if pyTruthy (some "2024-01-01") = false ∨ pyStrLt "2024-01-01" "2024-06-01" = true then
         some "2024-06-01"
       else some "2024-01-01") :=
  ⟨⟨by decide, C10_unparsable_timestamp_handling.2.2.1.2.2 "not-a-date" (by decide)⟩,
   ⟨by decide,
    (C10_unparsable_timestamp_handling.2.2.2.1 (0, some "2024-03-01", [])
       (QBORecord.mk (some "9") none none none) (by decide)).1⟩,
   fun _ => trivial,
   C10_unparsable_timestamp_handling.2.2.2.2 (some "2024-01-01") "2024-06-01" (by decide)⟩

/-- C10 counterexample: a record whose timestamp string is not parseable
as an ISO datetime is upserted with a null last-updated field and
counted, yet it changes the running checkpoint, refuting the claim that
such a record leaves the checkpoint unchanged. -/
theorem C10_counterexample_unparsable_advances_checkpoint :
    parseLastUpdatedTime (some "garbage") = none ∧
    stepCustomerRecord (0, some "2024-01-01T00:00:00Z", [])
        ⟨some "42", some "0", some "garbage", none⟩ =
      (1, some "garbage", [⟨some "42", some "0", none, none⟩]) := by
  exact ⟨by decide, by decide⟩

/-- C3.  A revoked account is never used for API calls: `sync_account`
raises the distinct revoked error before creating a client and attempts
no object type; and when `InvalidGrantError` is raised during any object
type of `SYNC_CONFIG`, the engine flips the revoked flag, persists it,
and raises the distinct revoked error, so the remaining object types are
not attempted in that call. -/
theorem C3_revoked_accounts_short_circuit :
    (∀ db realmId clientError outcomes acct,
       db.find? (fun a => a.realmId == realmId) = some acct →
       acct.isTokenExpired = true →
         (syncAccountM db realmId clientError outcomes).result =
             .error (.revoked "Token has been marked as expired") ∧
           (syncAccountM db realmId clientError outcomes).attemptedTypes = [] ∧
           (syncAccountM db realmId clientError outcomes).clientCreated = false) ∧
    (∀ db realmId outcomes acct m,
       db.find? (fun a => a.realmId == realmId) = some acct →
       acct.isTokenExpired = false →
       outcomes "customers" = .invalidGrant m →
         (syncAccountM db realmId none outcomes).result =
             .error (.revoked "Refresh token is invalid or revoked") ∧
           (syncAccountM db realmId none outcomes).finalAccount =
             some { acct with isTokenExpired := true } ∧
           (syncAccountM db realmId none outcomes).attemptedTypes = ["customers"]) ∧
    (∀ db realmId outcomes acct m,
       db.find? (fun a => a.realmId == realmId) = some acct →
       acct.isTokenExpired = false →
       (∀ m1, outcomes "customers" ≠ .invalidGrant m1) →
       outcomes "invoices" = .invalidGrant m →
         (syncAccountM db realmId none outcomes).result =
             .error (.revoked "Refresh token is invalid or revoked") ∧
           (syncAccountM db realmId none outcomes).finalAccount =
             some { (syncObjectTypeM acct (outcomes "customers")).1 with isTokenExpired := true } ∧
           (syncAccountM db realmId none outcomes).attemptedTypes = ["customers", "invoices"]) := by
  refine ⟨?_, ?_, ?_⟩
  · intro db realmId clientError outcomes acct hfind hexp
    simp [syncAccountM, hfind, hexp]
  · intro db realmId outcomes acct m hfind hexp hcust
    simp [syncAccountM, hfind, hexp, SYNC_CONFIG, runSyncConfig, syncObjectTypeM, hcust]
  · intro db realmId outcomes acct m hfind hexp hcust hinv
    cases hc : outcomes "customers" with
    | invalidGrant m1 => exact absurd hc (hcust m1)
    | ok count checkpoint =>
        simp [syncAccountM, hfind, hexp, SYNC_CONFIG, runSyncConfig, syncObjectTypeM, hc, hinv]
    | failure msg =>
        simp [syncAccountM, hfind, hexp, SYNC_CONFIG, runSyncConfig, syncObjectTypeM, hc, hinv]

/-- C3 witness: the theorem applied at concrete inputs, with each
hypothesis discharged there. -/
theorem C3_revoked_accounts_short_circuit_witness :
    (List.find? (fun a => a.realmId == "acme")
         [QBOAccount.mk "acme" "rt1" (some "at1") true] =
       some (QBOAccount.mk "acme" "rt1" (some "at1") true) ∧
     (QBOAccount.mk "acme" "rt1" (some "at1") true).isTokenExpired = true ∧
     (syncAccountM [QBOAccount.mk "acme" "rt1" (some "at1") true] "acme" none
         (fun _ => .ok 0 none)).attemptedTypes = []) ∧
    (List.find? (fun a => a.realmId == "beta")
         [QBOAccount.mk "beta" "rt2" (some "at2") false] =
       some (QBOAccount.mk "beta" "rt2" (some "at2") false) ∧
     (fun n => if n == "customers" then TypeSyncOutcome.invalidGrant "bad grant"
               else TypeSyncOutcome.ok 0 none) "customers" = .invalidGrant "bad grant" ∧
     (syncAccountM [QBOAccount.mk "beta" "rt2" (some "at2") false] "beta" none
         (fun n => if n == "customers" then TypeSyncOutcome.invalidGrant "bad grant"
                   else TypeSyncOutcome.ok 0 none)).attemptedTypes = ["customers"] ∧
     (syncAccountM [QBOAccount.mk "beta" "rt2" (some "at2") false] "beta" none
         (fun n => if n == "customers" then TypeSyncOutcome.invalidGrant "bad grant"
                   else TypeSyncOutcome.ok 0 none)).finalAccount =
       some (QBOAccount.mk "beta" "rt2" (some "at2") true)) :=
  ⟨⟨rfl, rfl,
    (C3_revoked_accounts_short_circuit.1 [QBOAccount.mk "acme" "rt1" (some "at1") true]
       "acme" none (fun _ => .ok 0 none)
       (QBOAccount.mk "acme" "rt1" (some "at1") true) rfl rfl).2.1⟩,
   ⟨rfl, rfl,
    (C3_revoked_accounts_short_circuit.2.1 [QBOAccount.mk "beta" "rt2" (some "at2") false]
       "beta"
       (fun n => if n == "customers" then TypeSyncOutcome.invalidGrant "bad grant"
                 else TypeSyncOutcome.ok 0 none)
       (QBOAccount.mk "beta" "rt2" (some "at2") false) "bad grant" rfl rfl rfl).2.2,
    (C3_revoked_accounts_short_circuit.2.1 [QBOAccount.mk "beta" "rt2" (some "at2") false]
       "beta"
       (fun n => if n == "customers" then TypeSyncOutcome.invalidGrant "bad grant"
                 else TypeSyncOutcome.ok 0 none)
       (QBOAccount.mk "beta" "rt2" (some "at2") false) "bad grant" rfl rfl rfl).2.1⟩⟩

/-- C7.  `sync_all_accounts` is a total function of the per-account
outcomes (every exception of `sync_account`, the revoked error included,
is caught inside the loop body, so the loop itself never raises); it
iterates exactly the accounts that are not flagged revoked and have a
non-empty refresh token, produces one outcome record per iterated
account, and the record at each position depends only on that account
and its own outcome, so a failure for one account cannot affect the
records of the others. -/
theorem C7_fleet_sync_isolation :
    (∀ db runAccount, (syncAllAccountsM db runAccount).length = (getActiveAccounts db).length) ∧
    (∀ db (a : QBOAccount), a ∈ getActiveAccounts db ↔
       (a ∈ db ∧ a.isTokenExpired = false ∧ a.refreshToken ≠ "")) ∧
    (∀ db runAccount i (h1 : i < (getActiveAccounts db).length)
       (h2 : i < (syncAllAccountsM db runAccount).length),
         (syncAllAccountsM db runAccount).get ⟨i, h2⟩ =
           fleetOutcomeFor ((getActiveAccounts db).get ⟨i, h1⟩) runAccount) ∧
    (∀ db f g i (h1 : i < (getActiveAccounts db).length)
       (h2 : i < (syncAllAccountsM db f).length) (h3 : i < (syncAllAccountsM db g).length),
         f ((getActiveAccounts db).get ⟨i, h1⟩).realmId =
           g ((getActiveAccounts db).get ⟨i, h1⟩).realmId →
         (syncAllAccountsM db f).get ⟨i, h2⟩ = (syncAllAccountsM db g).get ⟨i, h3⟩) := by
  refine ⟨?_, ?_, ?_, ?_⟩
  · intro db runAccount
    simp [syncAllAccountsM]
  · intro db a
    simp [getActiveAccounts, List.mem_filter, and_assoc]
  · intro db runAccount i h1 h2
    simp [syncAllAccountsM]
  · intro db f g i h1 h2 h3 hfg
    have e1 : (syncAllAccountsM db f).get ⟨i, h2⟩ =
        fleetOutcomeFor ((getActiveAccounts db).get ⟨i, h1⟩) f := by
      simp [syncAllAccountsM]
    have e2 : (syncAllAccountsM db g).get ⟨i, h3⟩ =
        fleetOutcomeFor ((getActiveAccounts db).get ⟨i, h1⟩) g := by
      simp [syncAllAccountsM]
    rw [e1, e2]
    unfold fleetOutcomeFor
    rw [hfg]

/-- C7 witness: the theorem applied at concrete inputs, with each
hypothesis discharged there. -/
theorem C7_fleet_sync_isolation_witness :
    (0 < (getActiveAccounts
        [QBOAccount.mk "acme" "rt1" none false,
         QBOAccount.mk "dead" "rt2" none true,
         QBOAccount.mk "noop" "" none false]).length ∧
     0 < (syncAllAccountsM
        [QBOAccount.mk "acme" "rt1" none false,
         QBOAccount.mk "dead" "rt2" none true,
         QBOAccount.mk "noop" "" none false]
        (fun _ => .error (.syncError "boom"))).length) ∧
    (syncAllAccountsM
        [QBOAccount.mk "acme" "rt1" none false,
         QBOAccount.mk "dead" "rt2" none true,
         QBOAccount.mk "noop" "" none false]
        (fun _ => .error (.syncError "boom"))).get ⟨0, by decide⟩ =
      fleetOutcomeFor ((getActiveAccounts
        [QBOAccount.mk "acme" "rt1" none false,
         QBOAccount.mk "dead" "rt2" none true,
         QBOAccount.mk "noop" "" none false]).get ⟨0, by decide⟩)
        (fun _ => .error (.syncError "boom")) :=
  ⟨⟨by decide, by decide⟩,
   C7_fleet_sync_isolation.2.2.1
     [QBOAccount.mk "acme" "rt1" none false,
      QBOAccount.mk "dead" "rt2" none true,
      QBOAccount.mk "noop" "" none false]
     (fun _ => .error (.syncError "boom")) 0 (by decide) (by decide)⟩

/-! ## Store lemmas -/

/-- Filtering after a key-preserving map keeps the filter count. -/
theorem filter_length_map_keyfix {α : Type} (key : α → Bool) (g : α → α)
    (h : ∀ r, key (g r) = key r) :
    ∀ l : List α, ((l.map g).filter key).length = (l.filter key).length := by
  intro l
  induction l with
  | nil => rfl
  | cons r rest ih =>
      simp only [List.map_cons, List.filter_cons, h r]
      cases hk : key r <;> simp [ih]

/-- A key-preserving map that sends every key-holding element to a fixed
value makes that value the first find within the mapped list. -/
theorem find?_map_const {α : Type} (key : α → Bool) (g : α → α) (v : α)
    (hpres : ∀ r, key (g r) = key r)
    (hval : ∀ r, key r = true → g r = v) :
    ∀ l : List α, l.any key = true → (l.map g).find? key = some v := by
  intro l
  induction l with
  | nil => simp
  | cons r rest ih =>
      intro hany
      rw [List.map_cons, List.find?_cons]
      cases hk : key r with
      | true =>
          rw [hpres r, hk]
          exact congrArg some (hval r hk)
      | false =>
          rw [hpres r, hk]
          rw [List.any_cons, hk, Bool.false_or] at hany
          exact ih hany

/-- A key-preserving map keeps the existence of a key-holding element. -/
theorem any_map_keyfix {α : Type} (key : α → Bool) (g : α → α)
    (hpres : ∀ r, key (g r) = key r) :
    ∀ l : List α, (l.map g).any key = l.any key := by
  intro l
  induction l with
  | nil => rfl
  | cons r rest ih => simp [List.any_cons, hpres r, ih]

/-- An existing key-holding element gives a positive filter count. -/
theorem filter_pos_of_any {α : Type} (key : α → Bool) :
    ∀ l : List α, l.any key = true → 0 < (l.filter key).length := by
  intro l
  induction l with
  | nil => simp
  | cons r rest ih =>
      intro hany
      rw [List.any_cons] at hany
      rw [List.filter_cons]
      cases hk : key r with
      | true => simp
      | false =>
          rw [hk, Bool.false_or] at hany
          simpa using ih hany

/-- Without a key-holding element the filter is empty. -/
theorem filter_nil_of_not_any {α : Type} (key : α → Bool) :
    ∀ l : List α, l.any key = false → l.filter key = [] := by
  intro l
  induction l with
  | nil => simp
  | cons r rest ih =>
      intro hany
      rw [List.any_cons, Bool.or_eq_false_iff] at hany
      rw [List.filter_cons, hany.1]
      exact ih hany.2

/-- Customer update functions used by the upsert preserve the key. -/
theorem customerUpsert_keyfix (a q a2 q2 : String) (p : RawPayload) (t u : Option String) :
    ∀ r, customerKeyIs a2 q2
        (if customerKeyIs a q r then
          { r with rawData := p, syncToken := t, lastUpdatedTime := u }
         else r) = customerKeyIs a2 q2 r := by
  intro r
  by_cases hk : customerKeyIs a q r = true
  · rw [if_pos hk]; rfl
  · rw [if_neg hk]

/-- Invoice update functions used by the upsert preserve the key. -/
theorem invoiceUpsert_keyfix (a q a2 q2 : String) (p : RawPayload) (c t u : Option String) :
    ∀ r, invoiceKeyIs a2 q2
        (if invoiceKeyIs a q r then
          { r with rawData := p, customerRef := c, syncToken := t, lastUpdatedTime := u }
         else r) = invoiceKeyIs a2 q2 r := by
  intro r
  by_cases hk : invoiceKeyIs a q r = true
  · rw [if_pos hk]; rfl
  · rw [if_neg hk]

/-- An upsert always leaves a row holding its key. -/
theorem customerUpsert_any (rows : List CustomerRow) (a q : String) (p : RawPayload)
    (t u : Option String) :
    (customerUpsert rows a q p t u).any (customerKeyIs a q) = true := by
  unfold customerUpsert
  by_cases hany : rows.any (customerKeyIs a q) = true
  · rw [if_pos hany, any_map_keyfix _ _ (customerUpsert_keyfix a q a q p t u)]
    exact hany
  · rw [if_neg hany]
    simp [List.any_append, customerKeyIs]

/-- An invoice upsert always leaves a row holding its key. -/
theorem invoiceUpsert_any (rows : List InvoiceRow) (a q : String) (p : RawPayload)
    (c t u : Option String) :
    (invoiceUpsert rows a q p c t u).any (invoiceKeyIs a q) = true := by
  unfold invoiceUpsert
  by_cases hany : rows.any (invoiceKeyIs a q) = true
  · rw [if_pos hany, any_map_keyfix _ _ (invoiceUpsert_keyfix a q a q p _ t u)]
    exact hany
  · rw [if_neg hany]
    simp [List.any_append, invoiceKeyIs]

/-- C8.  Upsert is idempotent on the (account, external id) key, for both
stores: one upsert leaves exactly one row holding the key (given the
unique-key invariant beforehand), a second upsert of the same key
overwrites the payload, sync token, customer reference, and last-updated
fields of that single row instead of creating a duplicate, rows holding
other keys are untouched, and the invoice upsert extracts the customer
reference from the raw payload when the argument is absent. -/
theorem C8_upsert_idempotent :
    (∀ rows a q p t u, customerKeyCount rows a q ≤ 1 →
       customerKeyCount (customerUpsert rows a q p t u) a q = 1) ∧
    (∀ rows a q p1 t1 u1 p2 t2 u2,
       (customerUpsert (customerUpsert rows a q p1 t1 u1) a q p2 t2 u2).find?
           (customerKeyIs a q) = some ⟨a, q, p2, t2, u2⟩) ∧
    (∀ rows a q p t u a2 q2, ¬(a2 = a ∧ q2 = q) →
       customerKeyCount (customerUpsert rows a q p t u) a2 q2 =
         customerKeyCount rows a2 q2) ∧
    (∀ rows a q p c t u, invoiceKeyCount rows a q ≤ 1 →
       invoiceKeyCount (invoiceUpsert rows a q p c t u) a q = 1) ∧
    (∀ rows a q p1 c1 t1 u1 p2 c2 t2 u2,
       (invoiceUpsert (invoiceUpsert rows a q p1 c1 t1 u1) a q p2 (some c2) t2 u2).find?
           (invoiceKeyIs a q) = some ⟨a, q, p2, some c2, t2, u2⟩) ∧
    (∀ rows a q p t u, invoiceUpsert rows a q p none t u =
       invoiceUpsert rows a q p p.customerRef t u) := by
  refine ⟨?_, ?_, ?_, ?_, ?_, ?_⟩
  · intro rows a q p t u h
    unfold customerKeyCount at *
    unfold customerUpsert
    by_cases hany : rows.any (customerKeyIs a q) = true
    · rw [if_pos hany,
        filter_length_map_keyfix (customerKeyIs a q) _ (customerUpsert_keyfix a q a q p t u)]
      have hpos := filter_pos_of_any (customerKeyIs a q) rows hany
      omega
    · rw [if_neg hany, List.filter_append,
        filter_nil_of_not_any (customerKeyIs a q) rows (by simpa using hany)]
      simp [customerKeyIs]
  · intro rows a q p1 t1 u1 p2 t2 u2
    have hany := customerUpsert_any rows a q p1 t1 u1
    generalize hrows1 : customerUpsert rows a q p1 t1 u1 = rows1 at hany ⊢
    unfold customerUpsert
    rw [if_pos hany]
    refine find?_map_const (customerKeyIs a q) _ _
      (customerUpsert_keyfix a q a q p2 t2 u2) ?_ _ hany
    intro r hk
    rw [if_pos hk]
    obtain ⟨ra, rq, rp, rt, ru⟩ := r
    simp only [customerKeyIs, Bool.and_eq_true, beq_iff_eq] at hk
    simp [hk.1, hk.2]
  · intro rows a q p t u a2 q2 hne
    unfold customerKeyCount
    unfold customerUpsert
    by_cases hany : rows.any (customerKeyIs a q) = true
    · rw [if_pos hany,
        filter_length_map_keyfix (customerKeyIs a2 q2) _ (customerUpsert_keyfix a q a2 q2 p t u)]
    · rw [if_neg hany, List.filter_append]
      have hnew : customerKeyIs a2 q2 ⟨a, q, p, t, u⟩ = false := by
        simp only [customerKeyIs, Bool.and_eq_false_iff]
        by_cases h1 : a = a2
        · refine Or.inr ?_
          simp only [beq_eq_false_iff_ne, ne_eq]
          intro h2
          exact hne ⟨h1.symm, h2.symm⟩
        · exact Or.inl (by simpa [beq_eq_false_iff_ne] using h1)
      simp [hnew]
  · intro rows a q p c t u h
    unfold invoiceKeyCount at *
    unfold invoiceUpsert
    by_cases hany : rows.any (invoiceKeyIs a q) = true
    · rw [if_pos hany,
        filter_length_map_keyfix (invoiceKeyIs a q) _ (invoiceUpsert_keyfix a q a q p _ t u)]
      have hpos := filter_pos_of_any (invoiceKeyIs a q) rows hany
      omega
    · rw [if_neg hany, List.filter_append,
        filter_nil_of_not_any (invoiceKeyIs a q) rows (by simpa using hany)]
      simp [invoiceKeyIs]
  · intro rows a q p1 c1 t1 u1 p2 c2 t2 u2
    have hany := invoiceUpsert_any rows a q p1 c1 t1 u1
    generalize hrows1 : invoiceUpsert rows a q p1 c1 t1 u1 = rows1 at hany ⊢
    unfold invoiceUpsert
    rw [if_pos hany]
    refine find?_map_const (invoiceKeyIs a q) _ _
      (invoiceUpsert_keyfix a q a q p2 _ t2 u2) ?_ _ hany
    intro r hk
    rw [if_pos hk]
    obtain ⟨ra, rq, rp, rc, rt, ru⟩ := r
    simp only [invoiceKeyIs, Bool.and_eq_true, beq_iff_eq] at hk
    simp [hk.1, hk.2]
  · intro rows a q p t u
    unfold invoiceUpsert
    cases hp : p.customerRef <;> simp [hp]

/-- C8 witness: the theorem applied at concrete inputs, with each
hypothesis discharged there. -/
theorem C8_upsert_idempotent_witness :
    (customerKeyCount ([] : List CustomerRow) "acct" "77" ≤ 1 ∧
      customerKeyCount
        (customerUpsert ([] : List CustomerRow) "acct" "77" ⟨none, "v1"⟩ (some "0")
          (some "2024-01-01")) "acct" "77" = 1) ∧
    (customerUpsert
        (customerUpsert ([] : List CustomerRow) "acct" "77" ⟨none, "v1"⟩ (some "0")
          (some "2024-01-01")) "acct" "77" ⟨none, "v2"⟩ (some "1")
        (some "2024-02-02")).find? (customerKeyIs "acct" "77") =
      some ⟨"acct", "77", ⟨none, "v2"⟩, some "1", some "2024-02-02"⟩ ∧
    (¬(("acct" : String) = "acct" ∧ ("88" : String) = "77") ∧
      customerKeyCount
        (customerUpsert ([⟨"acct", "88", ⟨none, "w"⟩, none, none⟩] : List CustomerRow)
          "acct" "77" ⟨none, "v1"⟩ none none) "acct" "88" =
        customerKeyCount ([⟨"acct", "88", ⟨none, "w"⟩, none, none⟩] : List CustomerRow)
          "acct" "88") ∧
    (invoiceKeyCount ([] : List InvoiceRow) "acct" "9" ≤ 1 ∧
      invoiceKeyCount
        (invoiceUpsert ([] : List InvoiceRow) "acct" "9" ⟨some "77", "inv"⟩ none (some "0")
          none) "acct" "9" = 1) :=
  ⟨⟨by decide,
    C8_upsert_idempotent.1 [] "acct" "77" ⟨none, "v1"⟩ (some "0") (some "2024-01-01")
      (by decide)⟩,
   C8_upsert_idempotent.2.1 [] "acct" "77" ⟨none, "v1"⟩ (some "0") (some "2024-01-01")
     ⟨none, "v2"⟩ (some "1") (some "2024-02-02"),
   ⟨by decide,
    C8_upsert_idempotent.2.2.1 [⟨"acct", "88", ⟨none, "w"⟩, none, none⟩] "acct" "77"
      ⟨none, "v1"⟩ none none "acct" "88" (by decide)⟩,
   ⟨by decide,
    C8_upsert_idempotent.2.2.2.1 [] "acct" "9" ⟨some "77", "inv"⟩ none (some "0") none
      (by decide)⟩⟩

/-- Control-flow lemma for `ensure_token_valid`: the body refreshes
exactly under the `needsRefresh` condition and otherwise returns the
state unchanged. -/
theorem ensureTokenValidM_eq (st : SdkTokenState) (now : Int) (http : RefreshHttpResult) :
    ensureTokenValidM st now http =
      (if needsRefresh st now = true then
        match refreshTokensM st now http with
        | .ok (st1, events) => ⟨.ok st1, events, 1⟩
        | .error e => ⟨.error e, [], 1⟩
       else ⟨.ok st, [], 0⟩) := by
  unfold ensureTokenValidM needsRefresh
  cases hat : st.accessToken with
  | none => simp
  | some tok =>
      cases hexp : st.tokenExpiresAt with
      | none => simp
      | some e =>
          by_cases hc : now ≥ e - 300
          · simp [hc]
          · simp [hc]

/-- C6.  `ensure_token_valid` performs a refresh exchange exactly when no
access token is held or the known expiry instant is within the
five-minute margin of now or already passed, and never attempts more
than one exchange (no retry loop); a successful exchange replaces the
access token, refresh token, and expiry together and invokes the
persistence callback with the new triple; an `invalid_grant` response
raises the distinct `InvalidGrantError` and every other non-2xx response
raises `AuthenticationError`. -/
theorem C6_ensure_token_valid :
    (∀ (st : SdkTokenState) now http,
       (ensureTokenValidM st now http).exchangeAttempts =
           (if needsRefresh st now = true then 1 else 0) ∧
         (ensureTokenValidM st now http).exchangeAttempts ≤ 1) ∧
    (∀ (st : SdkTokenState) now newAccess newRefresh expiresIn,
       needsRefresh st now = true →
         (ensureTokenValidM st now (.ok newAccess newRefresh expiresIn)).result =
             .ok { st with
                    accessToken := some newAccess
                    refreshToken := newRefresh
                    tokenExpiresAt := some (now + expiresIn.getD 3600) } ∧
           (st.hasCallback = true →
              (ensureTokenValidM st now (.ok newAccess newRefresh expiresIn)).callbackEvents =
                [(newAccess, newRefresh, now + expiresIn.getD 3600)])) ∧
    (∀ (st : SdkTokenState) now errDesc bodyText, needsRefresh st now = true →
       (ensureTokenValidM st now (.httpError (some ("invalid_grant", errDesc)) bodyText)).result =
         .error (.invalidGrant ("Refresh token invalid: " ++ errDesc))) ∧
    (∀ (st : SdkTokenState) now errCode errDesc bodyText, needsRefresh st now = true →
       errCode ≠ "invalid_grant" →
         (ensureTokenValidM st now (.httpError (some (errCode, errDesc)) bodyText)).result =
           .error (.authenticationError ("Token refresh failed: " ++ bodyText))) ∧
    (∀ (st : SdkTokenState) now bodyText, needsRefresh st now = true →
       (ensureTokenValidM st now (.httpError none bodyText)).result =
         .error (.authenticationError ("Token refresh failed: " ++ bodyText))) ∧
    (∀ (st : SdkTokenState) now http, needsRefresh st now = false →
       (ensureTokenValidM st now http).result = .ok st ∧
         (ensureTokenValidM st now http).callbackEvents = []) := by
  refine ⟨?_, ?_, ?_, ?_, ?_, ?_⟩
  · intro st now http
    rw [ensureTokenValidM_eq]
    by_cases h : needsRefresh st now = true
    · rw [if_pos h, if_pos h]
      cases hr : refreshTokensM st now http with
      | ok pair => cases pair; exact ⟨rfl, le_refl 1⟩
      | error e => exact ⟨rfl, le_refl 1⟩
    · rw [if_neg h, if_neg h]
      exact ⟨rfl, by norm_num⟩
  · intro st now newAccess newRefresh expiresIn h
    rw [ensureTokenValidM_eq, if_pos h]
    unfold refreshTokensM
    by_cases hcb : st.hasCallback = true
    · simp [hcb]
    · simp [hcb]
  · intro st now errDesc bodyText h
    rw [ensureTokenValidM_eq, if_pos h]
    rfl
  · intro st now errCode errDesc bodyText h hcode
    rw [ensureTokenValidM_eq, if_pos h]
    unfold refreshTokensM
    have : (errCode == "invalid_grant") = false := by
      simpa [beq_eq_false_iff_ne] using hcode
    simp [this]
  · intro st now bodyText h
    rw [ensureTokenValidM_eq, if_pos h]
    rfl
  · intro st now http h
    rw [ensureTokenValidM_eq, if_neg (by simp [h])]
    exact ⟨rfl, rfl⟩

/-- C6 witness: the theorem applied at concrete inputs, with each
hypothesis discharged there. -/
theorem C6_ensure_token_valid_witness :
    (needsRefresh (SdkTokenState.mk none "rt0" none true) 1000 = true ∧
      (ensureTokenValidM (SdkTokenState.mk none "rt0" none true) 1000
          (.ok "at1" "rt1" (some 3600))).result =
        .ok (SdkTokenState.mk (some "at1") "rt1" (some 4600) true) ∧
      (ensureTokenValidM (SdkTokenState.mk none "rt0" none true) 1000
          (.ok "at1" "rt1" (some 3600))).callbackEvents = [("at1", "rt1", 4600)]) ∧
    (needsRefresh (SdkTokenState.mk (some "at0") "rt0" (some 1100) true) 1000 = true ∧
      (ensureTokenValidM (SdkTokenState.mk (some "at0") "rt0" (some 1100) true) 1000
          (.httpError (some ("invalid_grant", "expired")) "body")).result =
        .error (.invalidGrant ("Refresh token invalid: " ++ "expired"))) ∧
    (needsRefresh (SdkTokenState.mk (some "at0") "rt0" (some 9999) true) 1000 = false ∧
      (ensureTokenValidM (SdkTokenState.mk (some "at0") "rt0" (some 9999) true) 1000
          (.httpError none "body")).result =
        .ok (SdkTokenState.mk (some "at0") "rt0" (some 9999) true)) :=
  ⟨⟨by decide,
    (C6_ensure_token_valid.2.1 (SdkTokenState.mk none "rt0" none true) 1000 "at1" "rt1"
       (some 3600) (by decide)).1,
    (C6_ensure_token_valid.2.1 (SdkTokenState.mk none "rt0" none true) 1000 "at1" "rt1"
       (some 3600) (by decide)).2 rfl⟩,
   ⟨by decide,
    C6_ensure_token_valid.2.2.1 (SdkTokenState.mk (some "at0") "rt0" (some 1100) true) 1000
      "expired" "body" (by decide)⟩,
   ⟨by decide,
    (C6_ensure_token_valid.2.2.2.2.2 (SdkTokenState.mk (some "at0") "rt0" (some 9999) true)
       1000 (.httpError none "body") (by decide)).1⟩⟩

/-- C5.  Per individual HTTP call: a rate-limited outcome is retried with
exponential backoff (base delay times two to the attempt) up to the
ceiling of three attempts and then surfaced as a rate-limit error; server
errors and network-level failures are retried with linear backoff (base
delay times the one-based attempt number) up to the same ceiling, after
which the last-seen error is surfaced; authentication, not-found, and
validation outcomes are raised immediately with no retry and no sleep;
a success within the ceiling returns at once. -/
theorem C5_retry_policy :
    (∀ attempts retryDelay m, attempts 0 = .authError m →
       requestWithRetry retryDelay attempts = (.error (.auth m), [])) ∧
    (∀ attempts retryDelay m, attempts 0 = .notFound m →
       requestWithRetry retryDelay attempts = (.error (.notFoundErr m), [])) ∧
    (∀ attempts retryDelay m, attempts 0 = .validationError m →
       requestWithRetry retryDelay attempts = (.error (.validation m), [])) ∧
    (∀ attempts retryDelay, (∀ i, i < 3 → attempts i = .rateLimited) →
       requestWithRetry retryDelay attempts =
         (.error (.rateLimit "Rate limit exceeded after retries"),
          [retryDelay * 1, retryDelay * 2, retryDelay * 4])) ∧
    (∀ attempts retryDelay m, (∀ i, i < 3 → attempts i = .serverError m) →
       requestWithRetry retryDelay attempts =
         (.error (.server m), [retryDelay * 1, retryDelay * 2])) ∧
    (∀ attempts retryDelay m, (∀ i, i < 3 → attempts i = .networkError m) →
       requestWithRetry retryDelay attempts =
         (.error (.sdkError ("Network error: " ++ m)), [retryDelay * 1, retryDelay * 2])) ∧
    (∀ attempts retryDelay body, attempts 0 = .rateLimited → attempts 1 = .success body →
       requestWithRetry retryDelay attempts = (.ok body, [retryDelay * 1])) := by
  refine ⟨?_, ?_, ?_, ?_, ?_, ?_, ?_⟩
  · intro attempts retryDelay m h0
    simp [requestWithRetry, requestAttemptLoop, h0]
  · intro attempts retryDelay m h0
    simp [requestWithRetry, requestAttemptLoop, h0]
  · intro attempts retryDelay m h0
    simp [requestWithRetry, requestAttemptLoop, h0]
  · intro attempts retryDelay h
    have h0 := h 0 (by norm_num)
    have h1 := h 1 (by norm_num)
    have h2 := h 2 (by norm_num)
    simp [requestWithRetry, requestAttemptLoop, h0, h1, h2]
  · intro attempts retryDelay m h
    have h0 := h 0 (by norm_num)
    have h1 := h 1 (by norm_num)
    have h2 := h 2 (by norm_num)
    simp [requestWithRetry, requestAttemptLoop, h0, h1, h2]
  · intro attempts retryDelay m h
    have h0 := h 0 (by norm_num)
    have h1 := h 1 (by norm_num)
    have h2 := h 2 (by norm_num)
    simp [requestWithRetry, requestAttemptLoop, h0, h1, h2]
  · intro attempts retryDelay body h0 h1
    simp [requestWithRetry, requestAttemptLoop, h0, h1]

/-- C5 witness: the theorem applied at concrete inputs, with each
hypothesis discharged there. -/
theorem C5_retry_policy_witness :
    ((fun _ => HttpAttemptOutcome.authError "denied") 0 = .authError "denied" ∧
      requestWithRetry 1 (fun _ => HttpAttemptOutcome.authError "denied") =
        (.error (.auth "denied"), [])) ∧
    ((∀ i, i < 3 → (fun _ => HttpAttemptOutcome.rateLimited) i = .rateLimited) ∧
      requestWithRetry 1 (fun _ => HttpAttemptOutcome.rateLimited) =
        (.error (.rateLimit "Rate limit exceeded after retries"), [1 * 1, 1 * 2, 1 * 4])) ∧
    ((∀ i, i < 3 → (fun _ => HttpAttemptOutcome.serverError "oops") i = .serverError "oops") ∧
      requestWithRetry 1 (fun _ => HttpAttemptOutcome.serverError "oops") =
        (.error (.server "oops"), [1 * 1, 1 * 2])) ∧
    ((fun i => if i == 0 then HttpAttemptOutcome.rateLimited else .success 7) 0 =
        .rateLimited ∧
      (fun i => if i == 0 then HttpAttemptOutcome.rateLimited else .success 7) 1 =
        .success 7 ∧
      requestWithRetry 1 (fun i => if i == 0 then HttpAttemptOutcome.rateLimited
          else .success 7) = (.ok 7, [1 * 1])) :=
  ⟨⟨rfl, C5_retry_policy.1 (fun _ => .authError "denied") 1 "denied" rfl⟩,
   ⟨fun _ _ => rfl, C5_retry_policy.2.2.2.1 (fun _ => .rateLimited) 1 (fun _ _ => rfl)⟩,
   ⟨fun _ _ => rfl,
    C5_retry_policy.2.2.2.2.1 (fun _ => .serverError "oops") 1 "oops" (fun _ _ => rfl)⟩,
   ⟨rfl, rfl,
    C5_retry_policy.2.2.2.2.2.2
      (fun i => if i == 0 then HttpAttemptOutcome.rateLimited else .success 7) 1 7 rfl rfl⟩⟩

/-! ## Pagination and ordering lemmas -/

/-- Flattening the generator from any valid start position returns the
selected records from that position on. -/
theorem queryGeneratorFrom_flatten (sel : List RemoteRecord) (ps : Nat) (hps : 1 ≤ ps) :
    ∀ start, 1 ≤ start →
      (queryGeneratorFrom sel ps start).flatten = sel.drop (start - 1) := by
  refine queryGeneratorFrom.induct sel ps
    (fun s => 1 ≤ s → (queryGeneratorFrom sel ps s).flatten = sel.drop (s - 1)) ?_ ?_ ?_
  · intro start h _
    rw [queryGeneratorFrom, if_pos h]
    rw [fetchPage, List.isEmpty_eq_true, List.take_eq_nil_iff] at h
    rcases h with h | h
    · omega
    · simp [h]
  · intro start h1 h2 _
    rw [queryGeneratorFrom, if_neg h1, if_pos h2]
    simp only [List.flatten, List.append_nil]
    rw [fetchPage, List.length_take] at h2
    have hle : (sel.drop (start - 1)).length ≤ ps := by
      rw [List.length_drop] at *
      omega
    rw [fetchPage, List.take_of_length_le hle]
  · intro start h1 h2 ih hst
    rw [queryGeneratorFrom, if_neg h1, if_neg h2]
    simp only [List.flatten_cons]
    rw [ih (by omega)]
    have heq : start + ps - 1 = (start - 1) + ps := by omega
    rw [fetchPage, heq, ← List.drop_drop, List.take_append_drop]

/-- Every yielded page is non-empty and at most the page size. -/
theorem queryGeneratorFrom_pages (sel : List RemoteRecord) (ps : Nat) :
    ∀ start, ∀ b ∈ queryGeneratorFrom sel ps start, b ≠ [] ∧ b.length ≤ ps := by
  refine queryGeneratorFrom.induct sel ps
    (fun s => ∀ b ∈ queryGeneratorFrom sel ps s, b ≠ [] ∧ b.length ≤ ps) ?_ ?_ ?_
  · intro start h b hb
    rw [queryGeneratorFrom, if_pos h] at hb
    cases hb
  · intro start h1 h2 b hb
    rw [queryGeneratorFrom, if_neg h1, if_pos h2] at hb
    rcases List.mem_singleton.mp hb with rfl
    refine ⟨fun hc => h1 (by simp [hc]), by omega⟩
  · intro start h1 h2 ih b hb
    rw [queryGeneratorFrom, if_neg h1, if_neg h2] at hb
    rcases List.mem_cons.mp hb with rfl | hmem
    · exact ⟨fun hc => h1 (by simp [hc]), by simp [fetchPage, List.length_take]⟩
    · exact ih b hmem

/-- Every page other than the last holds exactly the page size, so the
sequence stops exactly at the first short or empty page. -/
theorem queryGeneratorFrom_full_pages (sel : List RemoteRecord) (ps : Nat) :
    ∀ start, ∀ b ∈ (queryGeneratorFrom sel ps start).dropLast, b.length = ps := by
  refine queryGeneratorFrom.induct sel ps
    (fun s => ∀ b ∈ (queryGeneratorFrom sel ps s).dropLast, b.length = ps) ?_ ?_ ?_
  · intro start h b hb
    rw [queryGeneratorFrom, if_pos h] at hb
    cases hb
  · intro start h1 h2 b hb
    rw [queryGeneratorFrom, if_neg h1, if_pos h2] at hb
    simp at hb
  · intro start h1 h2 ih b hb
    rw [queryGeneratorFrom, if_neg h1, if_neg h2] at hb
    have hlen : (fetchPage sel start ps).length = ps := by
      rw [fetchPage, List.length_take] at *
      omega
    cases hrest : queryGeneratorFrom sel ps (start + ps) with
    | nil =>
        rw [hrest] at hb
        simp at hb
    | cons y ys =>
        rw [hrest] at hb
        rw [List.dropLast_cons₂] at hb
        rcases List.mem_cons.mp hb with rfl | hmem
        · exact hlen
        · have hmem2 := ih b
          rw [hrest] at hmem2
          exact hmem2 hmem

/-- The sort key order of the `ORDER BY` comparison agrees with the code
point order of the timestamp strings. -/
theorem updTimeLe_iff (a b : RemoteRecord) :
    updTimeLe a b = true ↔ strKey a.lastUpdatedTime ≤ strKey b.lastUpdatedTime := by
  simp [updTimeLe, pyStrLt, not_lt]

/-- Inserting into the ascending order yields a permutation of the cons. -/
theorem insertAsc_perm (r : RemoteRecord) :
    ∀ l : List RemoteRecord, List.Perm (insertAsc r l) (r :: l) := by
  intro l
  induction l with
  | nil => exact List.Perm.refl _
  | cons x xs ih =>
      rw [insertAsc]
      by_cases h : updTimeLe r x = true
      · rw [if_pos h]
      · rw [if_neg h]
        exact List.Perm.trans (List.Perm.cons x ih) (List.Perm.swap r x xs)

/-- Ordering a table yields a permutation of it. -/
theorem orderByUpdTimeAsc_perm (table : List RemoteRecord) :
    List.Perm (orderByUpdTimeAsc table) table := by
  induction table with
  | nil => exact List.Perm.refl _
  | cons x xs ih =>
      exact List.Perm.trans (insertAsc_perm x (orderByUpdTimeAsc xs)) (List.Perm.cons x ih)

/-- Inserting into a sorted list keeps it sorted. -/
theorem insertAsc_sorted (r : RemoteRecord) :
    ∀ l : List RemoteRecord, l.Pairwise (fun a b => updTimeLe a b = true) →
      (insertAsc r l).Pairwise (fun a b => updTimeLe a b = true) := by
  intro l
  induction l with
  | nil => intro _; exact List.pairwise_singleton _ r
  | cons x xs ih =>
      intro hp
      rw [List.pairwise_cons] at hp
      rw [insertAsc]
      by_cases h : updTimeLe r x = true
      · rw [if_pos h]
        rw [List.pairwise_cons]
        refine ⟨?_, List.pairwise_cons.mpr hp⟩
        intro a ha
        rcases List.mem_cons.mp ha with rfl | ha
        · exact h
        · rw [updTimeLe_iff] at *
          exact le_trans h ((updTimeLe_iff x a).mp (hp.1 a ha))
      · rw [if_neg h]
        rw [List.pairwise_cons]
        refine ⟨?_, ih hp.2⟩
        intro a ha
        have hxr : updTimeLe x r = true := by
          rw [updTimeLe_iff]
          rw [updTimeLe_iff] at h
          exact le_of_not_le (fun hc => h hc)
        rcases List.mem_cons.mp ((insertAsc_perm r xs).mem_iff.mp ha) with rfl | ha
        · exact hxr
        · exact hp.1 a ha

/-- Ordering a table sorts it ascending by update time. -/
theorem orderByUpdTimeAsc_sorted (table : List RemoteRecord) :
    (orderByUpdTimeAsc table).Pairwise (fun a b => updTimeLe a b = true) := by
  induction table with
  | nil => exact List.Pairwise.nil
  | cons x xs ih => exact insertAsc_sorted x (orderByUpdTimeAsc xs) ih

/-- C4.  For both object types, `get_all_generator` with no (truthy)
watermark pages through all records of the table ordered ascending by
update time, and with a watermark through exactly the records whose
update time compares strictly greater, same ordering; the concatenation
of the yielded batches is the selected sequence; every batch is
non-empty and at most the page size (default 100); every batch other
than the last holds exactly the page size, so the sequence terminates
exactly at the first page with zero records or fewer records than the
page size. -/
theorem C4_fetch_changed_pagination :
    (∀ table watermark, (customersGetAllGenerator table watermark).flatten =
       evalSelectQuery table (if pyTruthy watermark then watermark else none)) ∧
    (∀ table, List.Perm (evalSelectQuery table none) table) ∧
    (∀ table w, List.Perm (evalSelectQuery table (some w))
       (table.filter (fun r => pyStrLt w r.lastUpdatedTime))) ∧
    (∀ table w r, r ∈ evalSelectQuery table (some w) → pyStrLt w r.lastUpdatedTime = true) ∧
    (∀ table watermark,
       (evalSelectQuery table watermark).Pairwise (fun a b => updTimeLe a b = true)) ∧
    (∀ table watermark b, b ∈ customersGetAllGenerator table watermark →
       b ≠ [] ∧ b.length ≤ DEFAULT_PAGE_SIZE) ∧
    (∀ table watermark b, b ∈ (customersGetAllGenerator table watermark).dropLast →
       b.length = DEFAULT_PAGE_SIZE) ∧
    (∀ table watermark,
       invoicesGetAllGenerator table watermark = customersGetAllGenerator table watermark) := by
  refine ⟨?_, ?_, ?_, ?_, ?_, ?_, ?_, fun table watermark => rfl⟩
  · intro table watermark
    unfold customersGetAllGenerator
    rw [queryGeneratorFrom_flatten _ DEFAULT_PAGE_SIZE (by norm_num [DEFAULT_PAGE_SIZE]) 1
      (le_refl 1)]
    rfl
  · intro table
    exact orderByUpdTimeAsc_perm table
  · intro table w
    exact orderByUpdTimeAsc_perm _
  · intro table w r hr
    unfold evalSelectQuery at hr
    have := (orderByUpdTimeAsc_perm _).mem_iff.mp hr
    exact (List.mem_filter.mp this).2
  · intro table watermark
    unfold evalSelectQuery
    cases watermark <;> exact orderByUpdTimeAsc_sorted _
  · intro table watermark b hb
    exact queryGeneratorFrom_pages _ DEFAULT_PAGE_SIZE 1 b hb
  · intro table watermark b hb
    exact queryGeneratorFrom_full_pages _ DEFAULT_PAGE_SIZE 1 b hb

/-- C4 witness: the theorem applied at concrete inputs, with each
hypothesis discharged there. -/
theorem C4_fetch_changed_pagination_witness :
    (RemoteRecord.mk "r1" "2024-01-01" ∈
       evalSelectQuery
         [RemoteRecord.mk "r1" "2024-01-01", RemoteRecord.mk "r2" "2024-02-01",
          RemoteRecord.mk "r3" "2023-11-01"] (some "2023-12-31") ∧
     pyStrLt "2023-12-31" (RemoteRecord.mk "r1" "2024-01-01").lastUpdatedTime = true) ∧
    ([RemoteRecord.mk "r1" "2024-01-01", RemoteRecord.mk "r2" "2024-02-01"] ∈
       customersGetAllGenerator
         [RemoteRecord.mk "r1" "2024-01-01", RemoteRecord.mk "r2" "2024-02-01",
          RemoteRecord.mk "r3" "2023-11-01"] (some "2023-12-31") ∧
     [RemoteRecord.mk "r1" "2024-01-01", RemoteRecord.mk "r2" "2024-02-01"] ≠ [] ∧
     ([RemoteRecord.mk "r1" "2024-01-01", RemoteRecord.mk "r2" "2024-02-01"] :
         List RemoteRecord).length ≤ DEFAULT_PAGE_SIZE) := by
  have hsel : evalSelectQuery
      [RemoteRecord.mk "r1" "2024-01-01", RemoteRecord.mk "r2" "2024-02-01",
       RemoteRecord.mk "r3" "2023-11-01"] (some "2023-12-31") =
      [RemoteRecord.mk "r1" "2024-01-01", RemoteRecord.mk "r2" "2024-02-01"] := by decide
  have hif : (if pyTruthy (some "2023-12-31") then (some "2023-12-31") else none) =
      some "2023-12-31" := by decide
  have hgen : customersGetAllGenerator
      [RemoteRecord.mk "r1" "2024-01-01", RemoteRecord.mk "r2" "2024-02-01",
       RemoteRecord.mk "r3" "2023-11-01"] (some "2023-12-31") =
      [[RemoteRecord.mk "r1" "2024-01-01", RemoteRecord.mk "r2" "2024-02-01"]] := by
    simp only [customersGetAllGenerator]
    rw [hif, hsel, queryGeneratorFrom]
    simp [fetchPage, DEFAULT_PAGE_SIZE]
  have hmem : RemoteRecord.mk "r1" "2024-01-01" ∈
      evalSelectQuery
        [RemoteRecord.mk "r1" "2024-01-01", RemoteRecord.mk "r2" "2024-02-01",
         RemoteRecord.mk "r3" "2023-11-01"] (some "2023-12-31") := by
    rw [hsel]
    exact List.mem_cons_self _ _
  have hbmem : [RemoteRecord.mk "r1" "2024-01-01", RemoteRecord.mk "r2" "2024-02-01"] ∈
      customersGetAllGenerator
        [RemoteRecord.mk "r1" "2024-01-01", RemoteRecord.mk "r2" "2024-02-01",
         RemoteRecord.mk "r3" "2023-11-01"] (some "2023-12-31") := by
    rw [hgen]
    exact List.mem_singleton.mpr rfl
  exact ⟨⟨hmem,
    C4_fetch_changed_pagination.2.2.2.1
      [RemoteRecord.mk "r1" "2024-01-01", RemoteRecord.mk "r2" "2024-02-01",
       RemoteRecord.mk "r3" "2023-11-01"] "2023-12-31" (RemoteRecord.mk "r1" "2024-01-01")
      hmem⟩,
   ⟨hbmem,
    C4_fetch_changed_pagination.2.2.2.2.2.1
      [RemoteRecord.mk "r1" "2024-01-01", RemoteRecord.mk "r2" "2024-02-01",
       RemoteRecord.mk "r3" "2023-11-01"] (some "2023-12-31")
      [RemoteRecord.mk "r1" "2024-01-01", RemoteRecord.mk "r2" "2024-02-01"] hbmem⟩⟩
